import Mathlib

/-!
Verification of the resilient collection engine of this repository
(`src/common.py`, `src/github_collect.py`) against its design
specification.  The Python source is shallowly embedded: dictionaries
returned by the GitHub GraphQL API become Lean structures with `Option`
fields (a missing key or a JSON `null` is `none`), the JSONL checkpoint
file becomes a `List` of parsed lines, ISO timestamps stay `String`s and
the external `dateutil.parser.isoparse` becomes an explicit function
parameter `iso : String → ℚ` (epoch seconds), and Python `float` time is
modelled exactly with `ℚ`.
-/

namespace OssTransparency

/-- Python truthiness for an optional string value (`if repo:`):
`None` and the empty string are falsy. -/
def pyTruthy : Option String → Bool
  | none => false
  | some s => !(s == "")

/-- Does `pat` start `l`? -/
def isPrefixCl : List Char → List Char → Bool
  | [], _ => true
  | _ :: _, [] => false
  | c :: cs, d :: ds => c == d && isPrefixCl cs ds

/-- Does `pat` occur contiguously in `l`? -/
def containsCl (pat : List Char) : List Char → Bool
  | [] => isPrefixCl pat []
  | c :: cs => isPrefixCl pat (c :: cs) || containsCl pat cs

/-- Substring test, modelling the Python `pat in s` operator. -/
def strContains (s pat : String) : Bool :=
  containsCl pat.data s.data

/-- Python `str.lower()`: lower-case each character. -/
def strToLower (s : String) : String :=
  ⟨s.data.map Char.toLower⟩

/-! ## GraphQL response shape (the dictionaries read by the extractors) -/

/-- A `{ name }` sub-object (`defaultBranchRef`, `primaryLanguage`). -/
structure NameObj where
  name : Option String
  deriving DecidableEq, Repr

/-- A `{ spdxId }` sub-object (`licenseInfo`). -/
structure SpdxObj where
  spdxId : Option String
  deriving DecidableEq, Repr

/-- A `{ totalCount }` sub-object (`openIssues`, `comments`). -/
structure CountObj where
  totalCount : Option Int
  deriving DecidableEq, Repr

/-- One review node: `{ createdAt }`. -/
structure ReviewNode where
  createdAt : Option String
  deriving DecidableEq, Repr

/-- The `reviews` object: `{ nodes }`. -/
structure ReviewsObj where
  nodes : Option (List ReviewNode)
  deriving DecidableEq, Repr

/-- One pull-request node of the GraphQL response. -/
structure PrNode where
  number : Option Int
  createdAt : Option String
  closedAt : Option String
  mergedAt : Option String
  authorAssociation : Option String
  reviews : Option ReviewsObj
  deriving DecidableEq, Repr

/-- The `pullRequests` object: `{ nodes }`. -/
structure PrsObj where
  nodes : Option (List PrNode)
  deriving DecidableEq, Repr

/-- One bug-issue node of the GraphQL response. -/
structure IssueNode where
  number : Option Int
  createdAt : Option String
  closedAt : Option String
  state : Option String
  comments : Option CountObj
  deriving DecidableEq, Repr

/-- The `bugIssues` object: `{ nodes }`. -/
structure IssuesObj where
  nodes : Option (List IssueNode)
  deriving DecidableEq, Repr

/-- The `repository` object of the GraphQL response (`repo_data`). -/
structure RepoData where
  databaseId : Option Int
  defaultBranchRef : Option NameObj
  createdAt : Option String
  updatedAt : Option String
  pushedAt : Option String
  stargazerCount : Option Int
  forkCount : Option Int
  primaryLanguage : Option NameObj
  isArchived : Option Bool
  isFork : Option Bool
  licenseInfo : Option SpdxObj
  openIssues : Option CountObj
  pullRequests : Option PrsObj
  bugIssues : Option IssuesObj
  deriving DecidableEq, Repr

/-- The `data` object of a GraphQL response body: `{ repository }`;
`repository` is `none` when the key is missing or `null`. -/
structure GqlData where
  repository : Option RepoData
  deriving DecidableEq, Repr

/-- A GraphQL response body as returned by `http_graphql`:
`errors` is `some msgs` when the body has an `errors` array (its
messages), `data` is `none` when the `data` key is missing or falsy. -/
structure GqlResponse where
  errors : Option (List String)
  data : Option GqlData
  deriving DecidableEq, Repr

/-! ## Output rows (the dictionaries built by the extractors) -/

/-- One row of the repo-metadata table, as built by `extract_repo_meta`. -/
structure MetaRow where
  repo_full_name : String
  repo_id : Option Int
  default_branch : Option String
  created_at : Option String
  updated_at : Option String
  pushed_at : Option String
  stars : Option Int
  forks : Option Int
  open_issues : Option Int
  language : Option String
  archived : Option Bool
  fork : Option Bool
  license : Option String
  deriving DecidableEq, Repr

/-- One pull-request row as built by `extract_pull_requests`
(before the latency fields are added in `collect_one_repo`). -/
structure PrRow where
  repo_full_name : String
  pr_number : Option Int
  pr_created_at : Option String
  pr_closed_at : Option String
  pr_merged_at : Option String
  first_review_at : Option String
  review_count : Nat
  author_association : Option String
  deriving DecidableEq, Repr

/-- A pull-request row after `collect_one_repo` has added the two
latency fields. -/
structure PrRowL where
  repo_full_name : String
  pr_number : Option Int
  pr_created_at : Option String
  pr_closed_at : Option String
  pr_merged_at : Option String
  first_review_at : Option String
  review_count : Nat
  author_association : Option String
  latency_first_review_hours : Option ℚ
  latency_merge_hours : Option ℚ
  deriving DecidableEq, Repr

/-- One bug-issue row as built by `extract_bug_issues`. -/
structure BugRow where
  repo_full_name : String
  issue_number : Option Int
  created_at : Option String
  closed_at : Option String
  mttr_days : Option ℚ
  state : Option String
  comments : Option Int
  deriving DecidableEq, Repr

/-- One contributor row as built by `collect_contributors_rest`. -/
structure ContribRow where
  repo_full_name : String
  contributor_login : String
  contributions : Option Int
  type : Option String
  deriving DecidableEq, Repr

/-! ## Extractors (`extract_repo_meta`, `extract_pull_requests`,
`extract_bug_issues` and the `hours` closure of `collect_one_repo`).
`iso : String → ℚ` stands for `dateutil.parser.isoparse` composed with
"seconds since epoch"; the difference of two parses is then the Python
`timedelta.total_seconds()`. -/

/-- `extract_repo_meta(repo_data, repo_full_name)`: each
`(repo_data.get(k) or {}).get(f)` becomes `Option.bind`. -/
def extract_repo_meta (repo_data : RepoData) (repo_full_name : String) : MetaRow :=
  { repo_full_name := repo_full_name
    repo_id := repo_data.databaseId
    default_branch := repo_data.defaultBranchRef.bind NameObj.name
    created_at := repo_data.createdAt
    updated_at := repo_data.updatedAt
    pushed_at := repo_data.pushedAt
    stars := repo_data.stargazerCount
    forks := repo_data.forkCount
    open_issues := repo_data.openIssues.bind CountObj.totalCount
    language := repo_data.primaryLanguage.bind NameObj.name
    archived := repo_data.isArchived
    fork := repo_data.isFork
    license := repo_data.licenseInfo.bind SpdxObj.spdxId }

/-- The body of the `for pr in pr_nodes` loop of `extract_pull_requests`:
`reviews = (pr.get("reviews") or {}).get("nodes") or []`, the first
review's timestamp if any, and `review_count = len(reviews)`. -/
def prRowOf (repo_full_name : String) (pr : PrNode) : PrRow :=
  let reviews : List ReviewNode := ((pr.reviews.bind ReviewsObj.nodes).getD [])
  { repo_full_name := repo_full_name
    pr_number := pr.number
    pr_created_at := pr.createdAt
    pr_closed_at := pr.closedAt
    pr_merged_at := pr.mergedAt
    first_review_at := match reviews with
      | [] => none
      | r :: _ => r.createdAt
    review_count := reviews.length
    author_association := pr.authorAssociation }

/-- `extract_pull_requests(repo_data, repo_full_name)`:
`pr_nodes = (repo_data.get("pullRequests") or {}).get("nodes") or []`. -/
def extract_pull_requests (repo_data : RepoData) (repo_full_name : String) : List PrRow :=
  ((repo_data.pullRequests.bind PrsObj.nodes).getD []).map (prRowOf repo_full_name)

/-- The body of the `for it in issue_nodes` loop of `extract_bug_issues`:
`mttr_days` is computed only when `created and closed` are both truthy
(Python: non-`None` and non-empty). -/
def bugRowOf (iso : String → ℚ) (repo_full_name : String) (it : IssueNode) : BugRow :=
  let mttr : Option ℚ :=
    match it.createdAt, it.closedAt with
    | some c, some d => if c == "" || d == "" then none else some ((iso d - iso c) / 86400)
    | _, _ => none
  { repo_full_name := repo_full_name
    issue_number := it.number
    created_at := it.createdAt
    closed_at := it.closedAt
    mttr_days := mttr
    state := it.state
    comments := it.comments.bind CountObj.totalCount }

/-- `extract_bug_issues(repo_data, repo_full_name)`. -/
def extract_bug_issues (iso : String → ℚ) (repo_data : RepoData) (repo_full_name : String) :
    List BugRow :=
  ((repo_data.bugIssues.bind IssuesObj.nodes).getD []).map (bugRowOf iso repo_full_name)

/-- The `hours(a, b)` closure of `collect_one_repo`: `None` when either
argument is falsy (`None` or empty), otherwise the timestamp difference
in hours. -/
def hoursFn (iso : String → ℚ) : Option String → Option String → Option ℚ
  | some a, some b => if a == "" || b == "" then none else some ((iso b - iso a) / 3600)
  | _, _ => none

/-- The loop of `collect_one_repo` that adds
`latency_first_review_hours` and `latency_merge_hours` to a PR row. -/
def addLatency (iso : String → ℚ) (p : PrRow) : PrRowL :=
  { repo_full_name := p.repo_full_name
    pr_number := p.pr_number
    pr_created_at := p.pr_created_at
    pr_closed_at := p.pr_closed_at
    pr_merged_at := p.pr_merged_at
    first_review_at := p.first_review_at
    review_count := p.review_count
    author_association := p.author_association
    latency_first_review_hours := hoursFn iso p.pr_created_at p.first_review_at
    latency_merge_hours := hoursFn iso p.pr_created_at p.pr_merged_at }

/-! ## Checkpoint log (`load_checkpoint`, `append_checkpoint`,
`load_checkpoint_data`).  The JSONL file is a list of lines; a line
either is blank, fails `json.loads`, or parses to one of the JSON
object shapes below.  `append_checkpoint` only ever writes the three
shapes `done`/`skipped`/`errored`; `other` stands for any foreign JSON
object (with the value of its `repo_full_name` key, if a string). -/

/-- A parsed checkpoint JSON object. -/
inductive CkObj where
  /-- `{"repo_full_name": repo, "meta": …, "prs": …, "bugs": …, "contribs": …}` -/
  | done (repo : String) (meta : MetaRow) (prs : List PrRowL)
         (bugs : List BugRow) (contribs : List ContribRow)
  /-- `{"repo_full_name": repo, "skipped": reason}` -/
  | skipped (repo : String) (reason : String)
  /-- `{"repo_full_name": repo, "error": err}` -/
  | errored (repo : String) (err : String)
  /-- any other JSON object; `repo` is its `repo_full_name` value, if any -/
  | other (repo : Option String)
  deriving DecidableEq, Repr

/-- One line of the checkpoint file. -/
inductive CkLine where
  /-- whitespace-only line (`if not line: continue`) -/
  | blank
  /-- line on which `json.loads` raises (`except JSONDecodeError: continue`) -/
  | malformed
  /-- line parsing to a JSON object -/
  | record (obj : CkObj)
  deriving DecidableEq, Repr

/-- `obj.get("repo_full_name")`. -/
def lineRepo : CkObj → Option String
  | .done repo _ _ _ _ => some repo
  | .skipped repo _ => some repo
  | .errored repo _ => some repo
  | .other repo => repo

/-- The contribution of one line to the `done` set of `load_checkpoint`:
blank and malformed lines are skipped, and a parsed object contributes
its `repo_full_name` value exactly when that value is truthy
(`if repo: done.add(repo)`). -/
def lineDoneRepo : CkLine → Option String
  | .record obj =>
    match lineRepo obj with
    | some s => if s = "" then none else some s
    | none => none
  | _ => none

/-- `load_checkpoint(path)`: the set of `repo_full_name` values of the
parseable lines, as a list with membership semantics (Python `set`). -/
def load_checkpoint (lines : List CkLine) : List String :=
  lines.filterMap lineDoneRepo

/-- `load_checkpoint_data(path)`: every line that parses as JSON, in
file order; blank and malformed lines are skipped. -/
def load_checkpoint_data (lines : List CkLine) : List CkObj :=
  lines.filterMap fun l =>
    match l with
    | .record obj => some obj
    | _ => none

/-- `remaining = [r for r in all_repos if r not in done]` (main). -/
def remainingOf (all_repos : List String) (log : List CkLine) : List String :=
  all_repos.filter fun r => decide (r ∉ load_checkpoint log)

/-! ## `collect_one_repo` -/

/-- Stringification of a GraphQL `errors` array (`str(result["errors"])`). -/
def errStr (msgs : List String) : String :=
  toString msgs

/-- The value returned by `collect_one_repo`: an error summary dict,
`None` (skip), or the meta dict. -/
inductive CollectRet where
  | errRet (repo : String) (err : String)
  | skipRet
  | metaRet (m : MetaRow)
  deriving DecidableEq, Repr

/-- `collect_one_repo(repo, …)` from the point where the GraphQL call
has returned `result` (the raising path is handled by the dispatcher
model below).  The REST contributor fetch is abstracted as its outcome
`contribsRes` (`Except.error` = the `except Exception` branch, which
sets `contribs = []`).  Returns the checkpoint object appended for this
repo together with the function's return value. -/
def collect_one_repo (iso : String → ℚ) (repo : String) (result : GqlResponse)
    (contribsRes : Except String (List ContribRow)) : CkObj × CollectRet :=
  if result.errors.isSome ∧ result.data = none then
    (.errored repo (errStr (result.errors.getD [])),
     .errRet repo (errStr (result.errors.getD [])))
  else
    match result.data.bind GqlData.repository with
    | none => (.errored repo "repository not found", .errRet repo "repository not found")
    | some repo_data =>
      if repo_data.isArchived = some true ∨ repo_data.isFork = some true then
        (.skipped repo "archived_or_fork", .skipRet)
      else
        let meta := extract_repo_meta repo_data repo
        let prs := extract_pull_requests repo_data repo
        let bugs := extract_bug_issues iso repo_data repo
        let contribs := match contribsRes with
          | .ok c => c
          | .error _ => []
        let prsL := prs.map (addLatency iso)
        (.done repo meta prsL bugs contribs, .metaRet meta)

/-! ## Dataset rebuild (`main`, lines 334–375) -/

/-- An entry of the `all_meta` list: either a meta row of a `done`
record, or the `{"repo_full_name": …, "error": …}` row appended for an
errored record. -/
inductive MetaEntry where
  | metaRow (m : MetaRow)
  | errRow (repo : String) (err : String)
  deriving DecidableEq, Repr

/-- The four aggregate output tables. -/
structure Tables where
  meta : List MetaEntry
  prs : List PrRowL
  bugs : List BugRow
  contribs : List ContribRow
  deriving DecidableEq, Repr

/-- The `for rec in all_records` rebuild loop: an errored record (has
`error`, no `meta`) contributes one error row to `all_meta`; a skipped
record contributes nothing; a done record (has `meta`) contributes its
meta row and extends the three child tables; any other object
contributes nothing. -/
def rebuildTables : List CkObj → Tables
  | [] => ⟨[], [], [], []⟩
  | rec :: rest =>
    let t := rebuildTables rest
    match rec with
    | .errored repo err => { t with meta := .errRow repo err :: t.meta }
    | .skipped _ _ => t
    | .done _ m ps bs cs =>
      { meta := .metaRow m :: t.meta
        prs := ps ++ t.prs
        bugs := bs ++ t.bugs
        contribs := cs ++ t.contribs }
    | .other _ => t

/-! ## Work dispatcher (`main`, lines 310–332) -/

/-- What one work unit's processing does when the dispatcher runs it:
either `collect_one_repo` gets a GraphQL response (and a contributor
fetch outcome), or the unit's processing raises (e.g. the retry
decorator of `http_graphql` exhausts its attempts and raises). -/
inductive UnitBehavior where
  | responds (result : GqlResponse) (contribsRes : Except String (List ContribRow))
  | raises (msg : String)

/-- An entry of the in-memory `repo_meta_rows` list of `main`. -/
inductive SummaryRow where
  | errRow (repo : String) (err : String)
  | metaRow (m : MetaRow)
  deriving DecidableEq, Repr

/-- Processing of one completed future in the `as_completed` loop of
`main`: a normal return appends the unit's checkpoint record (written
inside `collect_one_repo`) and, when the returned value is truthy,
appends it to `repo_meta_rows`; a raised exception is caught and only
appends an error row to `repo_meta_rows` — no checkpoint record. -/
def dispatchStep (iso : String → ℚ) (acc : List CkLine × List SummaryRow)
    (u : String × UnitBehavior) : List CkLine × List SummaryRow :=
  match u.2 with
  | .raises msg => (acc.1, acc.2 ++ [.errRow u.1 msg])
  | .responds result contribsRes =>
    let r := collect_one_repo iso u.1 result contribsRes
    let log := acc.1 ++ [CkLine.record r.1]
    match r.2 with
    | .errRet repo err => (log, acc.2 ++ [.errRow repo err])
    | .skipRet => (log, acc.2)
    | .metaRet m => (log, acc.2 ++ [.metaRow m])

/-- The dispatcher loop over all submitted units, starting from an
empty log suffix and an empty summary. -/
def runDispatch (iso : String → ℚ) (units : List (String × UnitBehavior)) :
    List CkLine × List SummaryRow :=
  units.foldl (dispatchStep iso) ([], [])

/-- The checkpoint lines one unit contributes (for the dispatcher
homomorphism theorem): raising units contribute none. -/
def perUnitLog (iso : String → ℚ) (u : String × UnitBehavior) : List CkLine :=
  match u.2 with
  | .raises _ => []
  | .responds result contribsRes =>
    [CkLine.record (collect_one_repo iso u.1 result contribsRes).1]

/-- The summary rows one unit contributes. -/
def perUnitSummary (iso : String → ℚ) (u : String × UnitBehavior) : List SummaryRow :=
  match u.2 with
  | .raises msg => [.errRow u.1 msg]
  | .responds result contribsRes =>
    match (collect_one_repo iso u.1 result contribsRes).2 with
    | .errRet repo err => [.errRow repo err]
    | .skipRet => []
    | .metaRet m => [.metaRow m]

/-! ## Whole-run model for resumability (C1).  A run enumerates
`all_repos`, computes `remaining` from the existing log, and processes
each remaining repo in order; processing a repo appends the checkpoint
record `behavior r` determines (or nothing, when the unit's processing
raises — `behavior r = none`). -/

/-- Append the record of one processed repo to the log. -/
def appendFor (behavior : String → Option CkObj) (log : List CkLine) (r : String) :
    List CkLine :=
  match behavior r with
  | some obj => log ++ [CkLine.record obj]
  | none => log

/-- Process a list of repos in order. -/
def runList (behavior : String → Option CkObj) (rs : List String) (log : List CkLine) :
    List CkLine :=
  rs.foldl (appendFor behavior) log

/-- One full invocation of the collector: resume from the checkpoint
(`remaining = all_repos - done`) and process every remaining repo. -/
def runCollector (behavior : String → Option CkObj) (all_repos : List String)
    (log : List CkLine) : List CkLine :=
  runList behavior (remainingOf all_repos log) log

/-- An invocation killed after it has processed `k` work units. -/
def crashAfter (behavior : String → Option CkObj) (all_repos : List String)
    (log : List CkLine) (k : ℕ) : List CkLine :=
  runList behavior ((remainingOf all_repos log).take k) log

/-! ## Resilient call layer (`common.py`).  The `tenacity` decorator
`@retry(stop=stop_after_attempt(6), wait=wait_exponential(…))` retries
the wrapped function on *any* raised exception, sleeping
`wait_exponential(multiplier, min, max)` between attempts, and stops
after the sixth attempt. -/

/-- The exception a single attempt raises. -/
inductive HttpExn where
  /-- `RuntimeError(f"Retryable HTTP {status}")` for 429/500/502/503/504 -/
  | retryableStatus (code : ℕ)
  /-- the 403 branch of `http_get`: `time.sleep(retry_after)` then `RuntimeError` -/
  | secondaryRateLimit (retryAfter : ℕ)
  /-- `requests` `HTTPError` from `r.raise_for_status()` -/
  | httpError (code : ℕ)
  /-- `RuntimeError("GraphQL rate limit error: …")` after `time.sleep(30)` -/
  | gqlRateLimit (cooldownSeconds : ℚ)
  deriving DecidableEq, Repr

/-- The outcome of one attempt of a wrapped call. -/
inductive AttemptResult (α : Type) where
  | ok (a : α)
  | exn (e : HttpExn)
  deriving DecidableEq, Repr

/-- `tenacity.wait_exponential(multiplier, min, max)` evaluated after
the failure of attempt number `n` (1-based):
`max(max(0, min), min(multiplier * 2^(n-1), max))`. -/
def waitExp (multiplier mn mx : ℚ) (n : ℕ) : ℚ :=
  max (max 0 mn) (min (multiplier * 2 ^ (n - 1)) mx)

/-- The trace of one decorated call: its result, the number of attempts
made, and the backoff delays slept between consecutive attempts. -/
structure RetryTrace (α : Type) where
  result : Except HttpExn α
  attempts : ℕ
  delays : List ℚ
  deriving Repr

/-- The retry loop of the `tenacity` decorator: run attempt
`attemptNumber`; on success return, on an exception either give up
(`fuel = 0`, i.e. `stop_after_attempt` reached) or sleep
`wait attemptNumber` and try again. -/
def retryAux {α : Type} (f : ℕ → AttemptResult α) (wait : ℕ → ℚ) :
    ℕ → ℕ → List ℚ → RetryTrace α
  | attemptNumber, fuel, delays =>
    match f attemptNumber, fuel with
    | .ok a, _ => ⟨.ok a, attemptNumber, delays⟩
    | .exn e, 0 => ⟨.error e, attemptNumber, delays⟩
    | .exn _, fuel + 1 =>
      retryAux f wait (attemptNumber + 1) fuel (delays ++ [wait attemptNumber])

/-- A decorated call with at most `maxAttempts` attempts
(`stop_after_attempt(maxAttempts)`). -/
def retryRun {α : Type} (f : ℕ → AttemptResult α) (wait : ℕ → ℚ) (maxAttempts : ℕ) :
    RetryTrace α :=
  retryAux f wait 1 (maxAttempts - 1) []

/-- The body of `http_get` as a function of the response status code
(and of the `Retry-After` header used by the 403 branch):
403 sleeps the hint and raises; 429/500/502/503/504 raise a retryable
`RuntimeError`; `raise_for_status` raises `HTTPError` for any other
4xx/5xx; otherwise the response is returned. -/
def http_get_attempt (status retryAfter : ℕ) : AttemptResult ℕ :=
  if status = 403 then .exn (.secondaryRateLimit retryAfter)
  else if status = 429 ∨ status = 500 ∨ status = 502 ∨ status = 503 ∨ status = 504 then
    .exn (.retryableStatus status)
  else if 400 ≤ status ∧ status < 600 then .exn (.httpError status)
  else .ok status

/-- The body of `http_post`: as `http_get` but with no 403 branch. -/
def http_post_attempt (status : ℕ) : AttemptResult ℕ :=
  if status = 429 ∨ status = 500 ∨ status = 502 ∨ status = 503 ∨ status = 504 then
    .exn (.retryableStatus status)
  else if 400 ≤ status ∧ status < 600 then .exn (.httpError status)
  else .ok status

/-! ## `http_graphql` application-level error handling -/

/-- What the `if "errors" in data:` block of `http_graphql` does with a
response body. -/
inductive GqlStep where
  /-- `time.sleep(30)` then `raise RuntimeError(…)` -/
  | raiseRateLimit (cooldownSeconds : ℚ)
  /-- `return data` -/
  | returnData (d : GqlResponse)
  deriving DecidableEq, Repr

/-- The errors-inspection block of `http_graphql`: a message containing
`"rate limit"` (case-insensitively) sleeps 30s and raises; otherwise a
message containing `"Could not resolve"` returns the data as-is;
otherwise the data is returned as-is. -/
def graphqlHandleErrors (d : GqlResponse) : GqlStep :=
  match d.errors with
  | none => .returnData d
  | some msgs =>
    if msgs.any (fun m => strContains (strToLower m) "rate limit") then .raiseRateLimit 30
    else if msgs.any (fun m => strContains m "Could not resolve") then .returnData d
    else .returnData d

/-- One attempt of `http_graphql` whose HTTP layer succeeded with body
`d`, as seen by the retry decorator: returning is success, the
rate-limit branch raises. -/
def graphqlAttempt (d : GqlResponse) : AttemptResult GqlResponse :=
  match graphqlHandleErrors d with
  | .raiseRateLimit c => .exn (.gqlRateLimit c)
  | .returnData x => .ok x

/-! ## Credential pool (`TokenRotator`) -/

/-- The `_TokenState` dataclass: quota and reset deadline per PAT. -/
structure TokState where
  token : String
  remaining : Int
  resetAt : ℚ
  deriving DecidableEq, Repr

/-- The refresh loop of `get_token`: an exhausted token whose reset
deadline has passed gets its quota reset to the assumed default. -/
def refreshOne (now : ℚ) (t : TokState) : TokState :=
  if t.remaining ≤ 0 ∧ t.resetAt ≤ now then { t with remaining := 5000 } else t

/-- One step of Python `max(self._tokens, key=lambda t: t.remaining)`:
keep the current best unless the next is strictly better (so the first
maximum wins on ties). -/
def pickMax (b t : TokState) : TokState :=
  if b.remaining < t.remaining then t else b

/-- Python `max(…, key=lambda t: t.remaining)` over `b :: ts`. -/
def firstMax (b : TokState) (ts : List TokState) : TokState :=
  ts.foldl pickMax b

/-- `min(ts.reset_at for ts in self._tokens)` over `b :: ts`,
as a fold over the reset deadlines. -/
def minResetAt (b : TokState) (ts : List TokState) : ℚ :=
  ts.foldl (fun a x => min a x.resetAt) b.resetAt

/-- The result of `get_token`: the returned secret, the pool state it
leaves behind, and the sleep it performed, if any. -/
structure GetTokenResult where
  token : String
  toks : List TokState
  slept : Option ℚ
  deriving DecidableEq, Repr

/-- `TokenRotator.get_token` at time `now` (`none` on an empty pool,
which the constructor of `TokenRotator` rules out by raising).  Refresh
every exhausted token whose deadline passed; pick the token with the
most remaining quota; if even that one is exhausted, sleep
`max(0, earliest_reset - now) + 1` seconds, reset every token's quota
to 5000, and return the first token. -/
def get_token (toks : List TokState) (now : ℚ) : Option GetTokenResult :=
  match toks with
  | [] => none
  | t0 :: rest =>
    let r0 := refreshOne now t0
    let rs := rest.map (refreshOne now)
    let best := firstMax r0 rs
    if best.remaining ≤ 0 then
      let earliest := minResetAt r0 rs
      let waitSec := max 0 (earliest - now) + 1
      some ⟨r0.token, (r0 :: rs).map (fun x => { x with remaining := 5000 }), some waitSec⟩
    else
      some ⟨best.token, r0 :: rs, none⟩

/-! # Helper lemmas -/

/-- The first attempt succeeding ends the call at once, with no delays
slept. -/
lemma retryAux_ok {α : Type} (f : ℕ → AttemptResult α) (w : ℕ → ℚ) (a fuel : ℕ)
    (ds : List ℚ) (x : α) (h : f a = .ok x) :
    retryAux f w a fuel ds = ⟨.ok x, a, ds⟩ := by
  cases fuel <;> simp [retryAux, h]

/-- If every attempt fails, the retry loop spends all its fuel. -/
lemma retryAux_allExn {α : Type} (f : ℕ → AttemptResult α) (w : ℕ → ℚ)
    (h : ∀ n, ∃ e, f n = .exn e) :
    ∀ fuel a ds, (retryAux f w a fuel ds).attempts = a + fuel ∧
      ∃ e, (retryAux f w a fuel ds).result = .error e := by
  intro fuel
  induction fuel with
  | zero =>
    intro a ds
    obtain ⟨e, hf⟩ := h a
    exact ⟨by simp [retryAux, hf], e, by simp [retryAux, hf]⟩
  | succ fuel ih =>
    intro a ds
    obtain ⟨e, hf⟩ := h a
    have h1 : retryAux f w a (fuel + 1) ds = retryAux f w (a + 1) fuel (ds ++ [w a]) := by
      simp [retryAux, hf]
    rw [h1]
    obtain ⟨hatt, e', hres⟩ := ih (a + 1) (ds ++ [w a])
    exact ⟨by rw [hatt]; omega, e', hres⟩

/-- Shape of a retry trace: some `k ≤ fuel` extra attempts were made and
the delays slept are the waits of attempts `a, a+1, …, a+k-1`. -/
lemma retryAux_spec {α : Type} (f : ℕ → AttemptResult α) (w : ℕ → ℚ) :
    ∀ fuel a ds, ∃ k, k ≤ fuel ∧ (retryAux f w a fuel ds).attempts = a + k ∧
      (retryAux f w a fuel ds).delays = ds ++ (List.range' a k).map w := by
  intro fuel
  induction fuel with
  | zero =>
    intro a ds
    refine ⟨0, le_rfl, ?_, ?_⟩ <;> cases hf : f a <;> simp [retryAux, hf]
  | succ fuel ih =>
    intro a ds
    cases hf : f a with
    | ok x => exact ⟨0, Nat.zero_le _, by simp [retryAux_ok f w a _ ds x hf],
        by simp [retryAux_ok f w a _ ds x hf]⟩
    | exn e =>
      have h1 : retryAux f w a (fuel + 1) ds = retryAux f w (a + 1) fuel (ds ++ [w a]) := by
        simp [retryAux, hf]
      obtain ⟨k, hk, hatt, hdel⟩ := ih (a + 1) (ds ++ [w a])
      refine ⟨k + 1, by omega, ?_, ?_⟩
      · rw [h1, hatt]; omega
      · rw [h1, hdel, List.range'_succ, List.map_cons, List.append_assoc]
        rfl

/-- `wait_exponential` is monotone in the attempt number. -/
lemma waitExp_mono (multiplier mn mx : ℚ) (hm : 0 ≤ multiplier) {n k : ℕ} (h : n ≤ k) :
    waitExp multiplier mn mx n ≤ waitExp multiplier mn mx k := by
  unfold waitExp
  refine max_le_max le_rfl (min_le_min ?_ le_rfl)
  refine mul_le_mul_of_nonneg_left ?_ hm
  exact pow_le_pow_right₀ (by norm_num) (by omega)

/-- `wait_exponential` never exceeds its cap (when the floor is below
the cap). -/
lemma waitExp_le (multiplier mn mx : ℚ) (h0 : 0 ≤ mx) (hmn : mn ≤ mx) (n : ℕ) :
    waitExp multiplier mn mx n ≤ mx :=
  max_le (max_le h0 hmn) (min_le_right _ _)

/-- Mapping a monotone function over a run of consecutive naturals gives
a non-decreasing list. -/
lemma chain'_map_range' (w : ℕ → ℚ) (hw : ∀ n m, n ≤ m → w n ≤ w m) :
    ∀ k a, List.Chain' (· ≤ ·) ((List.range' a k).map w) := by
  intro k
  induction k with
  | zero => intro a; simp
  | succ k ih =>
    intro a
    rw [List.range'_succ, List.map_cons, List.chain'_cons']
    refine ⟨?_, ih (a + 1)⟩
    intro b hb
    cases k with
    | zero => simp at hb
    | succ k =>
      rw [List.range'_succ, List.map_cons] at hb
      simp only [List.head?_cons, Option.mem_def, Option.some.injEq] at hb
      exact hb ▸ hw a (a + 1) (by omega)

/-- Any error status (400–599) makes one `http_get` attempt raise. -/
lemma http_get_attempt_exn (status retryAfter : ℕ) (h4 : 400 ≤ status) (h6 : status < 600) :
    ∃ e, http_get_attempt status retryAfter = .exn e := by
  unfold http_get_attempt
  split
  · exact ⟨_, rfl⟩
  · split
    · exact ⟨_, rfl⟩
    · rw [if_pos ⟨h4, h6⟩]; exact ⟨_, rfl⟩

/-- Any error status (400–599) makes one `http_post` attempt raise. -/
lemma http_post_attempt_exn (status : ℕ) (h4 : 400 ≤ status) (h6 : status < 600) :
    ∃ e, http_post_attempt status = .exn e := by
  unfold http_post_attempt
  split
  · exact ⟨_, rfl⟩
  · rw [if_pos ⟨h4, h6⟩]; exact ⟨_, rfl⟩

/-- Attempt count and backoff-delay properties of a decorated call with
a `wait_exponential` policy. -/
lemma retryRun_waitExp_props {α : Type} (f : ℕ → AttemptResult α)
    (multiplier mn mx : ℚ) (hm : 0 ≤ multiplier) (h0 : 0 ≤ mx) (hmn : mn ≤ mx) :
    (retryRun f (waitExp multiplier mn mx) 6).attempts ≤ 6 ∧
    List.Chain' (· ≤ ·) (retryRun f (waitExp multiplier mn mx) 6).delays ∧
    ∀ d ∈ (retryRun f (waitExp multiplier mn mx) 6).delays, d ≤ mx := by
  obtain ⟨k, hk, hatt, hdel⟩ := retryAux_spec f (waitExp multiplier mn mx) 5 1 []
  unfold retryRun
  refine ⟨by rw [hatt]; omega, ?_, ?_⟩
  · rw [hdel, List.nil_append]
    exact chain'_map_range' _ (fun n m h => waitExp_mono multiplier mn mx hm h) k 1
  · intro d hd
    rw [hdel, List.nil_append, List.mem_map] at hd
    obtain ⟨n, _, rfl⟩ := hd
    exact waitExp_le multiplier mn mx h0 hmn n

/-- C7 (confirmed): every resilient call (`http_get`/`http_post` with
`wait_exponential(multiplier=1, min=1, max=60)` and `http_graphql` with
`wait_exponential(multiplier=1, min=2, max=120)`, both under
`stop_after_attempt(6)`) makes at most 6 attempts, and the backoff
delays the retry decorator sleeps between consecutive attempts form a
non-decreasing sequence bounded by the configured cap — 60 seconds for
the plain fetch path, 120 seconds for the structured-query path. -/
theorem C7_retry_backoff_policy (α β : Type) (f : ℕ → AttemptResult α)
    (g : ℕ → AttemptResult β) :
    ((retryRun f (waitExp 1 1 60) 6).attempts ≤ 6 ∧
     List.Chain' (· ≤ ·) (retryRun f (waitExp 1 1 60) 6).delays ∧
     ∀ d ∈ (retryRun f (waitExp 1 1 60) 6).delays, d ≤ 60) ∧
    ((retryRun g (waitExp 1 2 120) 6).attempts ≤ 6 ∧
     List.Chain' (· ≤ ·) (retryRun g (waitExp 1 2 120) 6).delays ∧
     ∀ d ∈ (retryRun g (waitExp 1 2 120) 6).delays, d ≤ 120) :=
  ⟨retryRun_waitExp_props f 1 1 60 (by norm_num) (by norm_num) (by norm_num),
   retryRun_waitExp_props g 1 2 120 (by norm_num) (by norm_num) (by norm_num)⟩

/-- Witness for C7 at a concrete always-failing plain call and a
concrete immediately-succeeding structured call. -/
theorem C7_retry_backoff_policy_witness :
    (retryRun (fun _ => http_get_attempt 503 60) (waitExp 1 1 60) 6).attempts ≤ 6 ∧
    (retryRun (fun _ => http_get_attempt 503 60) (waitExp 1 1 60) 6).attempts = 6 ∧
    (retryRun (fun _ => graphqlAttempt ⟨none, none⟩) (waitExp 1 2 120) 6).attempts ≤ 6 :=
  ⟨(C7_retry_backoff_policy ℕ GqlResponse (fun _ => http_get_attempt 503 60)
      (fun _ => graphqlAttempt ⟨none, none⟩)).1.1,
   by decide,
   (C7_retry_backoff_policy ℕ GqlResponse (fun _ => http_get_attempt 503 60)
      (fun _ => graphqlAttempt ⟨none, none⟩)).2.1⟩

/-- C5 counterexample: the claim says a 404 response on the plain fetch
path is a fatal, non-retried failure returned to the caller immediately
(one attempt).  In the code, `raise_for_status()` raises `HTTPError`
and the surrounding `@retry` decorator — which retries on *every*
exception — makes all 6 attempts on a persistent 404. -/
theorem C5_counterexample_404_retried :
    (retryRun (fun _ => http_get_attempt 404 60) (waitExp 1 1 60) 6).attempts ≠ 1 ∧
    (retryRun (fun _ => http_get_attempt 404 60) (waitExp 1 1 60) 6).attempts = 6 ∧
    (retryRun (fun _ => http_get_attempt 404 60) (waitExp 1 1 60) 6).result =
      .error (.httpError 404) :=
  ⟨by decide, by decide, rfl⟩

/-- C5 (amended): statuses 429/500/502/503/504 on the plain fetch path
raise retryable errors that consume retry attempts; any other 4xx/5xx
status not covered by a special case (e.g. 404 or 401) raises an
`HTTPError` which — because the retry decorator retries every
exception — *also* consumes retry attempts up to the maximum of 6 and
is only then surfaced to the caller, rather than being returned
immediately without retrying. -/
theorem C5_status_classification (status retryAfter : ℕ) :
    ((status = 429 ∨ status = 500 ∨ status = 502 ∨ status = 503 ∨ status = 504) →
      http_get_attempt status retryAfter = .exn (.retryableStatus status) ∧
      http_post_attempt status = .exn (.retryableStatus status)) ∧
    (400 ≤ status → status < 600 → status ≠ 403 →
      ¬(status = 429 ∨ status = 500 ∨ status = 502 ∨ status = 503 ∨ status = 504) →
      http_get_attempt status retryAfter = .exn (.httpError status) ∧
      http_post_attempt status = .exn (.httpError status)) ∧
    (400 ≤ status → status < 600 →
      (retryRun (fun _ => http_get_attempt status retryAfter) (waitExp 1 1 60) 6).attempts = 6 ∧
      (∃ e, (retryRun (fun _ => http_get_attempt status retryAfter)
              (waitExp 1 1 60) 6).result = .error e) ∧
      (retryRun (fun _ => http_post_attempt status) (waitExp 1 1 60) 6).attempts = 6 ∧
      (∃ e, (retryRun (fun _ => http_post_attempt status) (waitExp 1 1 60) 6).result =
        .error e)) := by
  refine ⟨?_, ?_, ?_⟩
  · intro h
    constructor
    · unfold http_get_attempt
      rw [if_neg (by omega), if_pos h]
    · unfold http_post_attempt
      rw [if_pos h]
  · intro h4 h6 h403 hsp
    constructor
    · unfold http_get_attempt
      rw [if_neg (fun h => h403 h), if_neg hsp, if_pos ⟨h4, h6⟩]
    · unfold http_post_attempt
      rw [if_neg hsp, if_pos ⟨h4, h6⟩]
  · intro h4 h6
    obtain ⟨hga, _, hgr⟩ :=
      retryAux_allExn (fun _ => http_get_attempt status retryAfter) (waitExp 1 1 60)
        (fun _ => http_get_attempt_exn status retryAfter h4 h6) 5 1 []
    obtain ⟨hpa, _, hpr⟩ :=
      retryAux_allExn (fun _ => http_post_attempt status) (waitExp 1 1 60)
        (fun _ => http_post_attempt_exn status h4 h6) 5 1 []
    exact ⟨hga, ⟨_, hgr⟩, hpa, ⟨_, hpr⟩⟩

/-- Witness for C5 at statuses 503 (retryable class) and 401
(other non-2xx). -/
theorem C5_status_classification_witness :
    http_get_attempt 503 60 = .exn (.retryableStatus 503) ∧
    http_get_attempt 401 60 = .exn (.httpError 401) ∧
    (retryRun (fun _ => http_post_attempt 401) (waitExp 1 1 60) 6).attempts = 6 :=
  ⟨((C5_status_classification 503 60).1 (by omega)).1,
   ((C5_status_classification 401 60).2.1 (by omega) (by omega) (by omega) (by omega)).1,
   ((C5_status_classification 401 60).2.2 (by omega) (by omega)).2.2.1⟩

/-- C6 (confirmed): on a GraphQL response body with an `errors` array,
`http_graphql` treats any message matching the (case-insensitive)
"rate limit" pattern as a retryable failure after a fixed 30-second
cooldown (the raise consumes retry attempts); otherwise a message
containing "Could not resolve" makes it return the body as-is
immediately — the wrapped call succeeds on its first attempt,
consuming no retry — and every other error payload is likewise
returned as-is to the caller without retrying. -/
theorem C6_graphql_app_error_classification (d : GqlResponse) (msgs : List String)
    (he : d.errors = some msgs) :
    (msgs.any (fun m => strContains (strToLower m) "rate limit") = true →
      graphqlHandleErrors d = .raiseRateLimit 30 ∧
      (retryRun (fun _ => graphqlAttempt d) (waitExp 1 2 120) 6).attempts = 6) ∧
    (msgs.any (fun m => strContains (strToLower m) "rate limit") = false →
      msgs.any (fun m => strContains m "Could not resolve") = true →
      graphqlHandleErrors d = .returnData d ∧
      retryRun (fun _ => graphqlAttempt d) (waitExp 1 2 120) 6 = ⟨.ok d, 1, []⟩) ∧
    (msgs.any (fun m => strContains (strToLower m) "rate limit") = false →
      msgs.any (fun m => strContains m "Could not resolve") = false →
      graphqlHandleErrors d = .returnData d ∧
      retryRun (fun _ => graphqlAttempt d) (waitExp 1 2 120) 6 = ⟨.ok d, 1, []⟩) := by
  refine ⟨?_, ?_, ?_⟩
  · intro hrl
    have hg : graphqlHandleErrors d = .raiseRateLimit 30 := by
      unfold graphqlHandleErrors
      rw [he]
      simp only [hrl, if_true]
    refine ⟨hg, ?_⟩
    have hexn : ∀ n : ℕ, ∃ e, (fun _ : ℕ => graphqlAttempt d) n = .exn e := by
      intro n
      exact ⟨.gqlRateLimit 30, by unfold graphqlAttempt; rw [hg]⟩
    exact (retryAux_allExn _ (waitExp 1 2 120) hexn 5 1 []).1
  · intro hrl hnf
    have hg : graphqlHandleErrors d = .returnData d := by
      unfold graphqlHandleErrors
      rw [he]
      simp only [hrl, hnf, Bool.false_eq_true, if_false, if_true]
    have hok : graphqlAttempt d = .ok d := by unfold graphqlAttempt; rw [hg]
    exact ⟨hg, retryAux_ok _ (waitExp 1 2 120) 1 5 [] d hok⟩
  · intro hrl hnf
    have hg : graphqlHandleErrors d = .returnData d := by
      unfold graphqlHandleErrors
      rw [he]
      simp only [hrl, hnf, Bool.false_eq_true, if_false]
    have hok : graphqlAttempt d = .ok d := by unfold graphqlAttempt; rw [hg]
    exact ⟨hg, retryAux_ok _ (waitExp 1 2 120) 1 5 [] d hok⟩

/-- Witness for C6 on a rate-limited body and a not-found body. -/
theorem C6_graphql_app_error_classification_witness :
    graphqlHandleErrors ⟨some ["API rate limit exceeded for token"], none⟩ =
      .raiseRateLimit 30 ∧
    retryRun (fun _ => graphqlAttempt ⟨some ["Could not resolve to a Repository"], none⟩)
      (waitExp 1 2 120) 6 =
      ⟨.ok ⟨some ["Could not resolve to a Repository"], none⟩, 1, []⟩ :=
  ⟨((C6_graphql_app_error_classification ⟨some ["API rate limit exceeded for token"], none⟩
      ["API rate limit exceeded for token"] rfl).1 (by decide)).1,
   ((C6_graphql_app_error_classification ⟨some ["Could not resolve to a Repository"], none⟩
      ["Could not resolve to a Repository"] rfl).2.1 (by decide) (by decide)).2⟩

/-- `refreshOne` never changes the stored secret. -/
lemma refreshOne_token (now : ℚ) (t : TokState) : (refreshOne now t).token = t.token := by
  unfold refreshOne
  split <;> rfl

/-- Unfolding `get_token` on a non-empty pool. -/
lemma get_token_cons (t0 : TokState) (rest : List TokState) (now : ℚ) :
    get_token (t0 :: rest) now =
      (if (firstMax (refreshOne now t0) (rest.map (refreshOne now))).remaining ≤ 0 then
        some ⟨(refreshOne now t0).token,
          ((refreshOne now t0) :: rest.map (refreshOne now)).map
            (fun x => { x with remaining := 5000 }),
          some (max 0 (minResetAt (refreshOne now t0) (rest.map (refreshOne now)) - now) + 1)⟩
      else
        some ⟨(firstMax (refreshOne now t0) (rest.map (refreshOne now))).token,
          (refreshOne now t0) :: rest.map (refreshOne now), none⟩) := rfl

/-- Python `max(…, key=…)` returns the first-listed maximum: the result
of `firstMax b ts` splits `b :: ts` into a prefix of strictly smaller
elements, the chosen maximum, and a remainder that is at most it. -/
lemma firstMax_spec : ∀ (ts : List TokState) (b : TokState),
    ∃ pre post, b :: ts = pre ++ firstMax b ts :: post ∧
      (∀ y ∈ b :: ts, y.remaining ≤ (firstMax b ts).remaining) ∧
      (∀ y ∈ pre, y.remaining < (firstMax b ts).remaining) := by
  intro ts
  induction ts with
  | nil =>
    intro b
    exact ⟨[], [], rfl, by simp [firstMax], by simp⟩
  | cons x ts ih =>
    intro b
    have hfold : firstMax b (x :: ts) = firstMax (pickMax b x) ts := rfl
    by_cases hbx : b.remaining < x.remaining
    · have hpick : pickMax b x = x := if_pos hbx
      obtain ⟨pre, post, hdecomp, hub, hlt⟩ := ih x
      refine ⟨b :: pre, post, ?_, ?_, ?_⟩
      · rw [hfold, hpick, List.cons_append]
        exact congrArg (List.cons b) hdecomp
      · intro y hy
        rw [hfold, hpick]
        rcases List.mem_cons.mp hy with rfl | hy'
        · exact le_trans (le_of_lt hbx) (hub x (List.mem_cons_self x ts))
        · exact hub y hy'
      · intro y hy
        rw [hfold, hpick]
        rcases List.mem_cons.mp hy with rfl | hy'
        · exact lt_of_lt_of_le hbx (hub x (List.mem_cons_self x ts))
        · exact hlt y hy'
    · have hpick : pickMax b x = b := if_neg hbx
      obtain ⟨pre, post, hdecomp, hub, hlt⟩ := ih b
      cases pre with
      | nil =>
        rw [List.nil_append] at hdecomp
        injection hdecomp with h1 h2
        refine ⟨[], x :: ts, ?_, ?_, by simp⟩
        · rw [hfold, hpick, ← h1, List.nil_append]
        · intro y hy
          rw [hfold, hpick, ← h1]
          rcases List.mem_cons.mp hy with rfl | hy'
          · exact le_rfl
          · rcases List.mem_cons.mp hy' with rfl | hy''
            · exact le_of_not_lt hbx
            · have := hub y (List.mem_cons_of_mem b hy'')
              rw [← h1] at this
              exact this
      | cons p pre' =>
        rw [List.cons_append] at hdecomp
        injection hdecomp with h1 h2
        refine ⟨b :: x :: pre', post, ?_, ?_, ?_⟩
        · rw [hfold, hpick, List.cons_append, List.cons_append, ← h2]
        · intro y hy
          rw [hfold, hpick]
          rcases List.mem_cons.mp hy with rfl | hy'
          · exact hub y (List.mem_cons_self y ts)
          · rcases List.mem_cons.mp hy' with rfl | hy''
            · refine le_trans (le_of_not_lt hbx) ?_
              exact hub b (List.mem_cons_self b ts)
            · exact hub y (List.mem_cons_of_mem b hy'')
        · intro y hy
          rw [hfold, hpick]
          have hbpre : b.remaining < (firstMax b ts).remaining := by
            have := hlt p (List.mem_cons_self p pre')
            rw [← h1] at this
            exact this
          rcases List.mem_cons.mp hy with rfl | hy'
          · exact hbpre
          · rcases List.mem_cons.mp hy' with rfl | hy''
            · exact lt_of_le_of_lt (le_of_not_lt hbx) hbpre
            · exact hlt y (List.mem_cons_of_mem p hy'')

/-- The fold computing the earliest reset deadline is a lower bound for
its seed and for every deadline in the list. -/
lemma foldl_min_resetAt_le : ∀ (ts : List TokState) (c : ℚ),
    (ts.foldl (fun a x => min a x.resetAt) c ≤ c ∧
     ∀ x ∈ ts, ts.foldl (fun a x => min a x.resetAt) c ≤ x.resetAt) := by
  intro ts
  induction ts with
  | nil => exact fun c => ⟨le_rfl, by simp⟩
  | cons x ts ih =>
    intro c
    have h := ih (min c x.resetAt)
    refine ⟨le_trans h.1 (min_le_left _ _), ?_⟩
    intro y hy
    rcases List.mem_cons.mp hy with rfl | hy'
    · exact le_trans h.1 (min_le_right _ _)
    · exact h.2 y hy'

/-- The fold computing the earliest reset deadline attains its seed or
some element's deadline. -/
lemma foldl_min_resetAt_mem : ∀ (ts : List TokState) (c : ℚ),
    (ts.foldl (fun a x => min a x.resetAt) c = c ∨
     ∃ x ∈ ts, ts.foldl (fun a x => min a x.resetAt) c = x.resetAt) := by
  intro ts
  induction ts with
  | nil => exact fun c => Or.inl rfl
  | cons x ts ih =>
    intro c
    rw [List.foldl_cons]
    rcases ih (min c x.resetAt) with h | ⟨y, hy, hval⟩
    · rcases le_total c x.resetAt with hc | hc
      · exact Or.inl (by rw [h, min_eq_left hc])
      · exact Or.inr ⟨x, List.mem_cons_self x ts, by rw [h, min_eq_right hc]⟩
    · exact Or.inr ⟨y, List.mem_cons_of_mem x hy, hval⟩

/-- C4 (confirmed): `TokenRotator.get_token` refreshes every exhausted
token whose reset deadline has passed, then returns the first-listed
token with the highest remaining quota; if even that maximum is `≤ 0`,
it computes the minimum `reset_at` over all tokens, sleeps
`max(0, earliest - now) + 1` seconds, resets every token's quota to the
default 5000, and returns the first token — so the returned credential
always has positive tracked quota, and whenever it does not come from a
positive maximum the pool has just slept past the earliest reset. -/
theorem C4_get_token_quota (t0 : TokState) (rest : List TokState) (now : ℚ) :
    ∃ res, get_token (t0 :: rest) now = some res ∧
      (res.slept = none ↔
        0 < (firstMax (refreshOne now t0) (rest.map (refreshOne now))).remaining) ∧
      (0 < (firstMax (refreshOne now t0) (rest.map (refreshOne now))).remaining →
        res.token = (firstMax (refreshOne now t0) (rest.map (refreshOne now))).token ∧
        res.toks = (refreshOne now t0) :: rest.map (refreshOne now) ∧
        ∃ pre post,
          (refreshOne now t0) :: rest.map (refreshOne now) =
            pre ++ firstMax (refreshOne now t0) (rest.map (refreshOne now)) :: post ∧
          (∀ y ∈ (refreshOne now t0) :: rest.map (refreshOne now),
            y.remaining ≤ (firstMax (refreshOne now t0) (rest.map (refreshOne now))).remaining) ∧
          (∀ y ∈ pre,
            y.remaining < (firstMax (refreshOne now t0) (rest.map (refreshOne now))).remaining)) ∧
      ((firstMax (refreshOne now t0) (rest.map (refreshOne now))).remaining ≤ 0 →
        res.slept = some (max 0 (minResetAt (refreshOne now t0) (rest.map (refreshOne now)) - now) + 1) ∧
        (∀ x ∈ (refreshOne now t0) :: rest.map (refreshOne now),
          minResetAt (refreshOne now t0) (rest.map (refreshOne now)) ≤ x.resetAt) ∧
        (∃ x ∈ (refreshOne now t0) :: rest.map (refreshOne now),
          minResetAt (refreshOne now t0) (rest.map (refreshOne now)) = x.resetAt) ∧
        res.token = t0.token ∧
        res.toks = ((refreshOne now t0) :: rest.map (refreshOne now)).map
          (fun x => { x with remaining := 5000 }) ∧
        ∀ x ∈ res.toks, x.remaining = 5000) ∧
      (∃ x ∈ res.toks, x.token = res.token ∧ 0 < x.remaining) := by
  by_cases hb :
      (firstMax (refreshOne now t0) (rest.map (refreshOne now))).remaining ≤ 0
  · refine ⟨_, by rw [get_token_cons, if_pos hb], ?_, ?_, ?_, ?_⟩
    · exact iff_of_false (by simp) (not_lt.mpr hb)
    · intro hpos
      exact absurd hpos (not_lt.mpr hb)
    · intro _
      refine ⟨rfl, ?_, ?_, refreshOne_token now t0, rfl, ?_⟩
      · intro x hx
        unfold minResetAt
        rcases List.mem_cons.mp hx with rfl | hx'
        · exact (foldl_min_resetAt_le (rest.map (refreshOne now))
            (refreshOne now t0).resetAt).1
        · exact (foldl_min_resetAt_le (rest.map (refreshOne now)) _).2 x hx'
      · unfold minResetAt
        rcases foldl_min_resetAt_mem (rest.map (refreshOne now)) (refreshOne now t0).resetAt with
          h | ⟨x, hx, hval⟩
        · exact ⟨refreshOne now t0, List.mem_cons_self _ _, h⟩
        · exact ⟨x, List.mem_cons_of_mem _ hx, hval⟩
      · intro x hx
        rw [List.mem_map] at hx
        obtain ⟨y, _, rfl⟩ := hx
        rfl
    · refine ⟨{ refreshOne now t0 with remaining := 5000 }, ?_, rfl, by norm_num⟩
      rw [List.map_cons]
      exact List.mem_cons_self _ _
  · refine ⟨_, by rw [get_token_cons, if_neg hb], ?_, ?_, ?_, ?_⟩
    · exact iff_of_true rfl (not_le.mp hb)
    · intro _
      obtain ⟨pre, post, hdecomp, hub, hlt⟩ :=
        firstMax_spec (rest.map (refreshOne now)) (refreshOne now t0)
      exact ⟨rfl, rfl, pre, post, hdecomp, hub, hlt⟩
    · intro h
      exact absurd h hb
    · obtain ⟨pre, post, hdecomp, hub, hlt⟩ :=
        firstMax_spec (rest.map (refreshOne now)) (refreshOne now t0)
      refine ⟨firstMax (refreshOne now t0) (rest.map (refreshOne now)), ?_, rfl, not_le.mp hb⟩
      rw [hdecomp]
      exact List.mem_append_right pre (List.mem_cons_self _ _)

/-- Witness for C4 on a two-token pool whose second token holds the
larger quota: the rotator hands out the second token without sleeping. -/
theorem C4_get_token_quota_witness :
    ∃ res, get_token [⟨"tokA", 10, 0⟩, ⟨"tokB", 4000, 30⟩] 7 = some res ∧
      res.token = "tokB" ∧ res.slept = none := by
  obtain ⟨res, hres, hiff, hpos, _, _⟩ :=
    C4_get_token_quota ⟨"tokA", 10, 0⟩ [⟨"tokB", 4000, 30⟩] 7
  have hgt : 0 < (firstMax (refreshOne 7 ⟨"tokA", 10, 0⟩)
      ([⟨"tokB", 4000, 30⟩].map (refreshOne 7))).remaining := by decide
  obtain ⟨htok, _, _⟩ := hpos hgt
  refine ⟨res, hres, ?_, hiff.mpr hgt⟩
  rw [htok]
  decide

/-- Characterization of one line's contribution to the done set. -/
lemma lineDoneRepo_eq_some (l : CkLine) (s : String) :
    lineDoneRepo l = some s ↔
      ∃ obj, l = .record obj ∧ lineRepo obj = some s ∧ s ≠ "" := by
  cases l with
  | blank => simp [lineDoneRepo]
  | malformed => simp [lineDoneRepo]
  | record obj =>
    simp only [lineDoneRepo, CkLine.record.injEq]
    rcases hro : lineRepo obj with _ | r
    · simp [hro]
    · have hred : (match some r with
          | some s => if s = "" then none else some s
          | none => (none : Option String)) = if r = "" then none else some r := rfl
      rw [hred]
      by_cases hr : r = ""
      · subst hr
        rw [if_pos rfl]
        constructor
        · intro h
          exact absurd h (by simp)
        · rintro ⟨obj', rfl, hro', hs⟩
          rw [hro] at hro'
          injection hro' with h
          exact absurd h.symm hs
      · rw [if_neg hr]
        constructor
        · intro h
          injection h with h
          subst h
          exact ⟨obj, rfl, hro, hr⟩
        · rintro ⟨obj', rfl, hro', _⟩
          rw [hro] at hro'
          exact hro'

/-- C2 counterexample: the claim says `load_checkpoint` returns exactly
the set of `repo_full_name` values found in lines that parse as JSON
objects carrying a `repo_full_name` key.  The checkpoint line
`{"repo_full_name": ""}` parses and carries the key with value `""`,
yet `""` is not in the returned set: `if repo:` drops falsy values. -/
theorem C2_counterexample_empty_value_dropped :
    lineRepo (CkObj.other (some "")) = some "" ∧
    "" ∉ load_checkpoint [CkLine.record (CkObj.other (some ""))] :=
  ⟨rfl, by decide⟩

/-- C2 (amended): `load_checkpoint` returns exactly the set of *truthy*
(non-null, non-empty) `repo_full_name` values found in lines that parse
as JSON objects; blank and malformed lines are skipped without raising;
`main` computes the remaining work set as all enumerated repos minus
this set, so a unit with any record — success, skip, or error — is not
reattempted on a rerun. -/
theorem C2_load_checkpoint_done_set (lines : List CkLine) (all_repos : List String)
    (s : String) :
    (s ∈ load_checkpoint lines ↔
      ∃ obj, CkLine.record obj ∈ lines ∧ lineRepo obj = some s ∧ s ≠ "") ∧
    (s ∈ remainingOf all_repos lines ↔ s ∈ all_repos ∧ s ∉ load_checkpoint lines) ∧
    (∀ err, CkLine.record (CkObj.errored s err) ∈ lines → s ≠ "" →
      s ∉ remainingOf all_repos lines) := by
  have h1 : s ∈ load_checkpoint lines ↔
      ∃ obj, CkLine.record obj ∈ lines ∧ lineRepo obj = some s ∧ s ≠ "" := by
    unfold load_checkpoint
    rw [List.mem_filterMap]
    constructor
    · rintro ⟨l, hl, hld⟩
      obtain ⟨obj, rfl, h⟩ := (lineDoneRepo_eq_some l s).mp hld
      exact ⟨obj, hl, h⟩
    · rintro ⟨obj, hmem, h⟩
      exact ⟨CkLine.record obj, hmem, (lineDoneRepo_eq_some _ s).mpr ⟨obj, rfl, h⟩⟩
  have h2 : s ∈ remainingOf all_repos lines ↔ s ∈ all_repos ∧ s ∉ load_checkpoint lines := by
    unfold remainingOf
    rw [List.mem_filter]
    simp
  refine ⟨h1, h2, ?_⟩
  intro err hmem hne hrem
  exact absurd (h1.mpr ⟨CkObj.errored s err, hmem, rfl, hne⟩) (h2.mp hrem).2

/-- Witness for C2 on a log holding one errored record: the errored
unit is excluded from the remaining work set. -/
theorem C2_load_checkpoint_done_set_witness :
    "octo/a" ∉ remainingOf ["octo/a", "octo/b"]
      [CkLine.record (CkObj.errored "octo/a" "boom")] :=
  (C2_load_checkpoint_done_set [CkLine.record (CkObj.errored "octo/a" "boom")]
    ["octo/a", "octo/b"] "octo/a").2.2 "boom" (by decide) (by decide)

/-- A skipped record anywhere in the log contributes nothing to the
rebuilt tables. -/
lemma rebuildTables_skipped_middle : ∀ (pre post : List CkObj) (r s : String),
    rebuildTables (pre ++ CkObj.skipped r s :: post) = rebuildTables (pre ++ post) := by
  intro pre
  induction pre with
  | nil => intro post r s; rfl
  | cons x pre ih =>
    intro post r s
    cases x <;> simp only [List.cons_append, rebuildTables, List.append_eq, ih]

/-- C8 (confirmed): a work unit whose fetched metadata marks it as
archived or as a fork is checkpointed as a skipped record — not a done
record, not an errored one — with reason `archived_or_fork`, its
processing returns `None`, and during dataset rebuild a skipped record
contributes zero rows to all four output tables. -/
theorem C8_skip_semantics (iso : String → ℚ) (repo : String) (result : GqlResponse)
    (contribsRes : Except String (List ContribRow)) (dd : GqlData) (rd : RepoData)
    (hdata : result.data = some dd) (hrepo : dd.repository = some rd)
    (hskip : rd.isArchived = some true ∨ rd.isFork = some true) :
    collect_one_repo iso repo result contribsRes =
      (CkObj.skipped repo "archived_or_fork", CollectRet.skipRet) ∧
    ∀ (pre post : List CkObj) (r s : String),
      rebuildTables (pre ++ CkObj.skipped r s :: post) = rebuildTables (pre ++ post) := by
  have hcond : ¬(result.errors.isSome ∧ result.data = none) := by
    rw [hdata]
    rintro ⟨_, h⟩
    exact Option.noConfusion h
  refine ⟨?_, rebuildTables_skipped_middle⟩
  simp [collect_one_repo, hcond, hdata, hrepo, hskip]

/-- Witness for C8 on an all-null repository object marked archived. -/
theorem C8_skip_semantics_witness :
    collect_one_repo (fun _ => 0) "octo/a"
      ⟨none, some ⟨some ⟨none, none, none, none, none, none, none, none,
        some true, none, none, none, none, none⟩⟩⟩ (.ok []) =
      (CkObj.skipped "octo/a" "archived_or_fork", CollectRet.skipRet) :=
  (C8_skip_semantics (fun _ => 0) "octo/a" _ (.ok [])
    ⟨some ⟨none, none, none, none, none, none, none, none,
      some true, none, none, none, none, none⟩⟩
    ⟨none, none, none, none, none, none, none, none,
      some true, none, none, none, none, none⟩
    rfl rfl (Or.inl rfl)).1

/-- `hours(a, b)` is null when the first timestamp is absent. -/
lemma hoursFn_none_left (iso : String → ℚ) (b : Option String) :
    hoursFn iso none b = none := by
  cases b <;> rfl

/-- `hours(a, b)` is null when the second timestamp is absent. -/
lemma hoursFn_none_right (iso : String → ℚ) (a : Option String) :
    hoursFn iso a none = none := by
  cases a <;> rfl

/-- C9 (confirmed): the extractors are total functions of the response
(they never raise on well-formed responses by construction of the
embedding); missing or null nested fields yield null-valued output
fields (or empty child-row lists), and every derived cross-timestamp
field — `mttr_days` on a bug issue, `latency_first_review_hours` and
`latency_merge_hours` on a pull request — is null whenever either of
its two input timestamps is absent. -/
theorem C9_extractor_null_degradation (iso : String → ℚ) (rd : RepoData) (repo : String)
    (it : IssueNode) (p : PrRow) :
    ((rd.defaultBranchRef = none ∨ rd.defaultBranchRef = some ⟨none⟩) →
      (extract_repo_meta rd repo).default_branch = none) ∧
    ((rd.primaryLanguage = none ∨ rd.primaryLanguage = some ⟨none⟩) →
      (extract_repo_meta rd repo).language = none) ∧
    ((rd.licenseInfo = none ∨ rd.licenseInfo = some ⟨none⟩) →
      (extract_repo_meta rd repo).license = none) ∧
    ((rd.openIssues = none ∨ rd.openIssues = some ⟨none⟩) →
      (extract_repo_meta rd repo).open_issues = none) ∧
    ((rd.pullRequests = none ∨ rd.pullRequests = some ⟨none⟩) →
      extract_pull_requests rd repo = []) ∧
    ((rd.bugIssues = none ∨ rd.bugIssues = some ⟨none⟩) →
      extract_bug_issues iso rd repo = []) ∧
    ((it.createdAt = none ∨ it.closedAt = none) →
      (bugRowOf iso repo it).mttr_days = none) ∧
    ((p.pr_created_at = none ∨ p.first_review_at = none) →
      (addLatency iso p).latency_first_review_hours = none) ∧
    ((p.pr_created_at = none ∨ p.pr_merged_at = none) →
      (addLatency iso p).latency_merge_hours = none) := by
  refine ⟨?_, ?_, ?_, ?_, ?_, ?_, ?_, ?_, ?_⟩
  · rintro (h | h) <;> simp [extract_repo_meta, h]
  · rintro (h | h) <;> simp [extract_repo_meta, h]
  · rintro (h | h) <;> simp [extract_repo_meta, h]
  · rintro (h | h) <;> simp [extract_repo_meta, h]
  · rintro (h | h) <;> simp [extract_pull_requests, h]
  · rintro (h | h) <;> simp [extract_bug_issues, h]
  · rintro (h | h)
    · unfold bugRowOf
      cases hc : it.closedAt <;> simp [h, hc]
    · unfold bugRowOf
      cases hc : it.createdAt <;> simp [h, hc]
  · rintro (h | h)
    · simp [addLatency, h, hoursFn_none_left]
    · simp [addLatency, h, hoursFn_none_right]
  · rintro (h | h)
    · simp [addLatency, h, hoursFn_none_left]
    · simp [addLatency, h, hoursFn_none_right]

/-- Witness for C9 on an all-null repository object, issue node and PR
row. -/
theorem C9_extractor_null_degradation_witness :
    (extract_repo_meta
      ⟨none, none, none, none, none, none, none, none, none, none, none, none, none, none⟩
      "octo/a").default_branch = none ∧
    (bugRowOf (fun _ => 0) "octo/a" ⟨none, none, none, none, none⟩).mttr_days = none ∧
    (addLatency (fun _ => 0)
      ⟨"octo/a", none, none, none, none, none, 0, none⟩).latency_first_review_hours = none :=
  ⟨(C9_extractor_null_degradation (fun _ => 0)
      ⟨none, none, none, none, none, none, none, none, none, none, none, none, none, none⟩
      "octo/a" ⟨none, none, none, none, none⟩
      ⟨"octo/a", none, none, none, none, none, 0, none⟩).1 (Or.inl rfl),
   (C9_extractor_null_degradation (fun _ => 0)
      ⟨none, none, none, none, none, none, none, none, none, none, none, none, none, none⟩
      "octo/a" ⟨none, none, none, none, none⟩
      ⟨"octo/a", none, none, none, none, none, 0, none⟩).2.2.2.2.2.2.1 (Or.inl rfl),
   (C9_extractor_null_degradation (fun _ => 0)
      ⟨none, none, none, none, none, none, none, none, none, none, none, none, none, none⟩
      "octo/a" ⟨none, none, none, none, none⟩
      ⟨"octo/a", none, none, none, none, none, 0, none⟩).2.2.2.2.2.2.2.1 (Or.inl rfl)⟩

/-- C10 (confirmed): for a unit whose GraphQL call succeeds with a
repository that is not skipped, an exception in the separate REST
contributor fetch is swallowed: the outcome is identical to a
successful fetch of zero contributors — the unit is checkpointed as a
done record with an empty contributors list, returned (and hence
counted) as collected, and no errored record or any other trace of the
failure appears in the checkpoint record. -/
theorem C10_contributor_fetch_failure_swallowed (iso : String → ℚ) (repo : String)
    (result : GqlResponse) (dd : GqlData) (rd : RepoData) (e : String)
    (hdata : result.data = some dd) (hrepo : dd.repository = some rd)
    (hns : ¬(rd.isArchived = some true ∨ rd.isFork = some true)) :
    collect_one_repo iso repo result (.error e) = collect_one_repo iso repo result (.ok []) ∧
    collect_one_repo iso repo result (.error e) =
      (CkObj.done repo (extract_repo_meta rd repo)
        ((extract_pull_requests rd repo).map (addLatency iso))
        (extract_bug_issues iso rd repo) [],
       CollectRet.metaRet (extract_repo_meta rd repo)) := by
  have hcond : ¬(result.errors.isSome ∧ result.data = none) := by
    rw [hdata]
    rintro ⟨_, h⟩
    exact Option.noConfusion h
  constructor
  · simp [collect_one_repo, hcond, hdata, hrepo, hns]
  · simp [collect_one_repo, hcond, hdata, hrepo, hns]

/-- Witness for C10 on an all-null, non-archived repository object and
a failing contributor fetch. -/
theorem C10_contributor_fetch_failure_swallowed_witness :
    collect_one_repo (fun _ => 0) "octo/a"
      ⟨none, some ⟨some ⟨none, none, none, none, none, none, none, none,
        none, none, none, none, none, none⟩⟩⟩ (.error "ConnectionError") =
    collect_one_repo (fun _ => 0) "octo/a"
      ⟨none, some ⟨some ⟨none, none, none, none, none, none, none, none,
        none, none, none, none, none, none⟩⟩⟩ (.ok []) :=
  (C10_contributor_fetch_failure_swallowed (fun _ => 0) "octo/a" _
    ⟨some ⟨none, none, none, none, none, none, none, none,
      none, none, none, none, none, none⟩⟩
    ⟨none, none, none, none, none, none, none, none,
      none, none, none, none, none, none⟩
    "ConnectionError" rfl rfl (by simp)).1

/-- One dispatcher step appends exactly the unit's own contributions. -/
lemma dispatchStep_eq (iso : String → ℚ) (acc : List CkLine × List SummaryRow)
    (u : String × UnitBehavior) :
    dispatchStep iso acc u = (acc.1 ++ perUnitLog iso u, acc.2 ++ perUnitSummary iso u) := by
  rcases u with ⟨repo, ub⟩
  cases ub with
  | raises msg => simp [dispatchStep, perUnitLog, perUnitSummary]
  | responds result contribsRes =>
    simp only [dispatchStep, perUnitLog, perUnitSummary]
    cases h : (collect_one_repo iso repo result contribsRes).2 <;> simp [h]

/-- The dispatcher fold is the concatenation of per-unit contributions:
no unit's outcome affects the processing of any other unit. -/
lemma foldl_dispatch (iso : String → ℚ) :
    ∀ (units : List (String × UnitBehavior)) (acc : List CkLine × List SummaryRow),
      units.foldl (dispatchStep iso) acc =
        (acc.1 ++ units.flatMap (perUnitLog iso), acc.2 ++ units.flatMap (perUnitSummary iso)) := by
  intro units
  induction units with
  | nil => intro acc; simp
  | cons u units ih =>
    intro acc
    rw [List.foldl_cons, dispatchStep_eq, ih]
    simp [List.flatMap_cons]

/-- C3 counterexample: the claim says *every* failure classification —
including a retryable failure that exhausted all retry attempts and is
surfaced as a raised exception — results in an `Errored` checkpoint
record being appended.  A unit whose processing raises (the
`RetryError` path) is caught by `main`'s `except` branch, which appends
only to the in-memory `repo_meta_rows` list: the checkpoint log gets no
record at all for that unit. -/
theorem C3_counterexample_exception_not_checkpointed :
    (runDispatch (fun _ => 0) [("octo/repo", UnitBehavior.raises "RetryError")]).1 = [] ∧
    (runDispatch (fun _ => 0) [("octo/repo", UnitBehavior.raises "RetryError")]).2 =
      [SummaryRow.errRow "octo/repo" "RetryError"] :=
  ⟨rfl, rfl⟩

/-- C3 (amended): the dispatcher processes every submitted unit and a
unit's failure never aborts the run or other units (the run is the
concatenation of independent per-unit contributions); failures surfaced
as GraphQL *error payloads* — an `errors` array with no data, or a
missing repository — are checkpointed as `Errored` records carrying the
reason; but a failure surfaced as a *raised exception* (e.g. retryable
failures that exhausted all 6 attempts) is only recorded in the
in-memory summary, and no checkpoint record is appended for it. -/
theorem C3_failure_isolation (iso : String → ℚ) (units : List (String × UnitBehavior)) :
    ((runDispatch iso units).1 = units.flatMap (perUnitLog iso) ∧
     (runDispatch iso units).2 = units.flatMap (perUnitSummary iso)) ∧
    (∀ repo result contribsRes,
      (repo, UnitBehavior.responds result contribsRes) ∈ units →
      ((result.errors.isSome ∧ result.data = none) →
        CkLine.record (CkObj.errored repo (errStr (result.errors.getD []))) ∈
          (runDispatch iso units).1) ∧
      (¬(result.errors.isSome ∧ result.data = none) →
        result.data.bind GqlData.repository = none →
        CkLine.record (CkObj.errored repo "repository not found") ∈
          (runDispatch iso units).1)) ∧
    (∀ repo msg, (repo, UnitBehavior.raises msg) ∈ units →
      perUnitLog iso (repo, UnitBehavior.raises msg) = [] ∧
      SummaryRow.errRow repo msg ∈ (runDispatch iso units).2) := by
  have hom := foldl_dispatch iso units ([], [])
  have hlog : (runDispatch iso units).1 = units.flatMap (perUnitLog iso) := by
    unfold runDispatch
    rw [hom]
    rfl
  have hsum : (runDispatch iso units).2 = units.flatMap (perUnitSummary iso) := by
    unfold runDispatch
    rw [hom]
    rfl
  refine ⟨⟨hlog, hsum⟩, ?_, ?_⟩
  · intro repo result contribsRes hu
    constructor
    · intro hfail
      have hck : (collect_one_repo iso repo result contribsRes).1 =
          CkObj.errored repo (errStr (result.errors.getD [])) := by
        unfold collect_one_repo
        rw [if_pos hfail]
      rw [hlog]
      refine List.mem_flatMap.mpr ⟨(repo, UnitBehavior.responds result contribsRes), hu, ?_⟩
      simp [perUnitLog, hck]
    · intro hn hrep
      have hck : (collect_one_repo iso repo result contribsRes).1 =
          CkObj.errored repo "repository not found" := by
        unfold collect_one_repo
        rw [if_neg hn, hrep]
      rw [hlog]
      refine List.mem_flatMap.mpr ⟨(repo, UnitBehavior.responds result contribsRes), hu, ?_⟩
      simp [perUnitLog, hck]
  · intro repo msg hu
    refine ⟨rfl, ?_⟩
    rw [hsum]
    refine List.mem_flatMap.mpr ⟨(repo, UnitBehavior.raises msg), hu, ?_⟩
    simp [perUnitSummary]

/-- Witness for C3 on a two-unit run: the first unit's GraphQL error
payload is checkpointed as an errored record while the second unit's
raised exception only reaches the in-memory summary. -/
theorem C3_failure_isolation_witness :
    CkLine.record (CkObj.errored "octo/a" (errStr ["boom"])) ∈
      (runDispatch (fun _ => 0)
        [("octo/a", UnitBehavior.responds ⟨some ["boom"], none⟩ (.ok [])),
         ("octo/b", UnitBehavior.raises "RetryError")]).1 ∧
    SummaryRow.errRow "octo/b" "RetryError" ∈
      (runDispatch (fun _ => 0)
        [("octo/a", UnitBehavior.responds ⟨some ["boom"], none⟩ (.ok [])),
         ("octo/b", UnitBehavior.raises "RetryError")]).2 :=
  ⟨((C3_failure_isolation (fun _ => 0)
      [("octo/a", UnitBehavior.responds ⟨some ["boom"], none⟩ (.ok [])),
       ("octo/b", UnitBehavior.raises "RetryError")]).2.1
      "octo/a" ⟨some ["boom"], none⟩ (.ok [])
      (List.mem_cons_self _ _)).1 ⟨rfl, rfl⟩,
   ((C3_failure_isolation (fun _ => 0)
      [("octo/a", UnitBehavior.responds ⟨some ["boom"], none⟩ (.ok [])),
       ("octo/b", UnitBehavior.raises "RetryError")]).2.2
      "octo/b" "RetryError"
      (List.mem_cons_of_mem _ (List.mem_cons_self _ _))).2⟩

/-- Membership in a checkpoint log's done set. -/
lemma mem_load_checkpoint (lines : List CkLine) (s : String) :
    s ∈ load_checkpoint lines ↔ ∃ l ∈ lines, lineDoneRepo l = some s :=
  List.mem_filterMap

/-- Processing a run of repos leaves a log whose done set is the old
done set plus the processed repos that produced a record. -/
lemma mem_load_runList (b : String → Option CkObj)
    (hb : ∀ r obj, b r = some obj → lineRepo obj = some r) :
    ∀ (rs : List String) (log : List CkLine) (s : String),
      s ∈ load_checkpoint (runList b rs log) ↔
        s ∈ load_checkpoint log ∨ (s ∈ rs ∧ s ≠ "" ∧ (b s).isSome) := by
  intro rs
  induction rs with
  | nil =>
    intro log s
    simp [runList]
  | cons r rs ih =>
    intro log s
    rw [show runList b (r :: rs) log = runList b rs (appendFor b log r) from rfl, ih]
    cases hbr : b r with
    | none =>
      rw [show appendFor b log r = log from by unfold appendFor; rw [hbr]]
      constructor
      · rintro (h | h)
        · exact Or.inl h
        · exact Or.inr ⟨List.mem_cons_of_mem r h.1, h.2⟩
      · rintro (h | ⟨hmem, hrest⟩)
        · exact Or.inl h
        · rcases List.mem_cons.mp hmem with rfl | hmem'
          · rw [hbr] at hrest
            exact absurd hrest.2 (by simp)
          · exact Or.inr ⟨hmem', hrest⟩
    | some obj =>
      rw [show appendFor b log r = log ++ [CkLine.record obj] from by
        unfold appendFor; rw [hbr]]
      have happ : s ∈ load_checkpoint (log ++ [CkLine.record obj]) ↔
          s ∈ load_checkpoint log ∨ lineDoneRepo (CkLine.record obj) = some s := by
        rw [mem_load_checkpoint]
        constructor
        · rintro ⟨l, hl, hld⟩
          rcases List.mem_append.mp hl with hl' | hl'
          · exact Or.inl ((mem_load_checkpoint log s).mpr ⟨l, hl', hld⟩)
          · rw [List.mem_singleton.mp hl'] at hld
            exact Or.inr hld
        · rintro (h | h)
          · obtain ⟨l, hl, hld⟩ := (mem_load_checkpoint log s).mp h
            exact ⟨l, List.mem_append_left _ hl, hld⟩
          · exact ⟨CkLine.record obj, List.mem_append_right _ (List.mem_singleton.mpr rfl), h⟩
      rw [happ]
      have hrepo := hb r obj hbr
      have hld : lineDoneRepo (CkLine.record obj) = if r = "" then none else some r := by
        simp [lineDoneRepo, hrepo]
      constructor
      · rintro ((h | h) | h)
        · exact Or.inl h
        · rw [hld] at h
          by_cases hr : r = ""
          · rw [if_pos hr] at h
            exact absurd h (by simp)
          · rw [if_neg hr] at h
            injection h with h
            subst h
            exact Or.inr ⟨List.mem_cons_self r rs, hr, by rw [hbr]; rfl⟩
        · exact Or.inr ⟨List.mem_cons_of_mem r h.1, h.2⟩
      · rintro (h | ⟨hmem, hne, hsome⟩)
        · exact Or.inl (Or.inl h)
        · rcases List.mem_cons.mp hmem with rfl | hmem'
          · refine Or.inl (Or.inr ?_)
            rw [hld, if_neg hne]
          · exact Or.inr ⟨hmem', hne, hsome⟩

/-- Processing repos that all raise appends nothing. -/
lemma runList_id_of_none (b : String → Option CkObj) :
    ∀ (rs : List String) (log : List CkLine), (∀ r ∈ rs, b r = none) →
      runList b rs log = log := by
  intro rs
  induction rs with
  | nil => intro log _; rfl
  | cons r rs ih =>
    intro log h
    rw [show runList b (r :: rs) log = runList b rs (appendFor b log r) from rfl,
      show appendFor b log r = log from by
        unfold appendFor; rw [h r (List.mem_cons_self r rs)]]
    exact ih log (fun x hx => h x (List.mem_cons_of_mem r hx))

/-- Processing a concatenation is processing the parts in order. -/
lemma runList_append (b : String → Option CkObj) (xs ys : List String) (log : List CkLine) :
    runList b (xs ++ ys) log = runList b ys (runList b xs log) :=
  List.foldl_append _ _ _ _

/-- With an empty checkpoint the remaining work set is everything. -/
lemma remainingOf_nil (all_repos : List String) : remainingOf all_repos [] = all_repos := by
  unfold remainingOf load_checkpoint
  simp

/-- A crashed-and-resumed run leaves exactly the log of an
uninterrupted run: the first `k` processed units are skipped on resume
(they are in the done set), units that produced no record are
reprocessed (producing nothing again), and the remainder is processed
as the single run would have. -/
lemma resume_log_eq (b : String → Option CkObj) (all_repos : List String) (k : ℕ)
    (hnd : all_repos.Nodup) (hne : ∀ r ∈ all_repos, r ≠ "")
    (hb : ∀ r obj, b r = some obj → lineRepo obj = some r) :
    runCollector b all_repos (crashAfter b all_repos [] k) = runCollector b all_repos [] := by
  obtain ⟨t, d, rfl, ht, hd⟩ :
      ∃ t d, all_repos = t ++ d ∧ t = all_repos.take k ∧ d = all_repos.drop k :=
    ⟨_, _, (List.take_append_drop k all_repos).symm, rfl, rfl⟩
  have hcrash : crashAfter b (t ++ d) [] k = runList b t [] := by
    unfold crashAfter
    rw [remainingOf_nil, ← ht]
  have hsingle : runCollector b (t ++ d) [] = runList b (t ++ d) [] := by
    unfold runCollector
    rw [remainingOf_nil]
  have hchar : ∀ s, s ∈ load_checkpoint (runList b t []) ↔
      (s ∈ t ∧ s ≠ "" ∧ (b s).isSome) := by
    intro s
    rw [mem_load_runList b hb t [] s]
    simp [load_checkpoint]
  have hdisj := (List.nodup_append.mp hnd).2.2
  have hfilter : remainingOf (t ++ d) (runList b t []) =
      t.filter (fun r => decide (r ∉ load_checkpoint (runList b t []))) ++ d := by
    unfold remainingOf
    rw [List.filter_append]
    congr 1
    rw [List.filter_eq_self]
    intro r hr
    rw [decide_eq_true_eq]
    intro hmem
    exact hdisj ((hchar r).mp hmem).1 hr
  have hnones : ∀ r ∈ t.filter (fun r => decide (r ∉ load_checkpoint (runList b t []))),
      b r = none := by
    intro r hr
    obtain ⟨hrt, hP⟩ := List.mem_filter.mp hr
    rw [decide_eq_true_eq] at hP
    by_contra hbr
    have hsome : (b r).isSome := Option.ne_none_iff_isSome.mp hbr
    have hrne : r ≠ "" := hne r (List.mem_append_left _ hrt)
    exact hP ((hchar r).mpr ⟨hrt, hrne, hsome⟩)
  rw [hcrash, hsingle]
  unfold runCollector
  rw [hfilter, runList_append, runList_id_of_none b _ _ hnones, ← runList_append]

/-- C1 (confirmed): the output tables are always rebuilt from the
complete checkpoint log (`load_checkpoint_data` over the whole file,
never from only the current run's in-memory rows), so for any `k`, a
deterministic run interrupted after `k` work units and resumed by a
fresh invocation yields output tables whose row content is set-equal to
those of a single uninterrupted run over the same (deduplicated) work
units.  The hypotheses state that `collect_one_repo` checkpoints each
repo under its own name, as it does on every path. -/
theorem C1_resumability (behavior : String → Option CkObj) (all_repos : List String) (k : ℕ)
    (hnd : all_repos.Nodup) (hne : ∀ r ∈ all_repos, r ≠ "")
    (hb : ∀ r obj, behavior r = some obj → lineRepo obj = some r) :
    (∀ m, m ∈ (rebuildTables (load_checkpoint_data
        (runCollector behavior all_repos (crashAfter behavior all_repos [] k)))).meta ↔
      m ∈ (rebuildTables (load_checkpoint_data
        (runCollector behavior all_repos []))).meta) ∧
    (∀ p, p ∈ (rebuildTables (load_checkpoint_data
        (runCollector behavior all_repos (crashAfter behavior all_repos [] k)))).prs ↔
      p ∈ (rebuildTables (load_checkpoint_data
        (runCollector behavior all_repos []))).prs) ∧
    (∀ g, g ∈ (rebuildTables (load_checkpoint_data
        (runCollector behavior all_repos (crashAfter behavior all_repos [] k)))).bugs ↔
      g ∈ (rebuildTables (load_checkpoint_data
        (runCollector behavior all_repos []))).bugs) ∧
    (∀ c, c ∈ (rebuildTables (load_checkpoint_data
        (runCollector behavior all_repos (crashAfter behavior all_repos [] k)))).contribs ↔
      c ∈ (rebuildTables (load_checkpoint_data
        (runCollector behavior all_repos []))).contribs) := by
  rw [resume_log_eq behavior all_repos k hnd hne hb]
  exact ⟨fun _ => Iff.rfl, fun _ => Iff.rfl, fun _ => Iff.rfl, fun _ => Iff.rfl⟩

/-- Witness for C1 on a two-repo universe whose units are all skipped,
with a crash after the first unit. -/
theorem C1_resumability_witness :
    MetaEntry.errRow "octo/a" "boom" ∈
      (rebuildTables (load_checkpoint_data
        (runCollector (fun r => some (CkObj.errored r "boom")) ["octo/a", "octo/b"]
          (crashAfter (fun r => some (CkObj.errored r "boom"))
            ["octo/a", "octo/b"] [] 1)))).meta ↔
    MetaEntry.errRow "octo/a" "boom" ∈
      (rebuildTables (load_checkpoint_data
        (runCollector (fun r => some (CkObj.errored r "boom")) ["octo/a", "octo/b"] []))).meta :=
  (C1_resumability (fun r => some (CkObj.errored r "boom")) ["octo/a", "octo/b"] 1
    (by decide) (by decide) (fun r obj h => by cases h; rfl)).1
    (MetaEntry.errRow "octo/a" "boom")

end OssTransparency
